import Mathlib

/-!
Verification development for the multi-agent orchestration examples in this
repository.  The repository consists of example programs driving an external
orchestration runtime; the concrete helpers that live in the repository
(`spanish_handoff_message_filter`, `on_seat_booking_handoff`,
`custom_instructions`, the agent and handoff wiring, and the recorded
lifecycle transcript) are embedded directly from their source files, while
the runtime contract they rely on (item model, runner loop, hook dispatcher,
handoff machinery) is modelled from the specification document, since its
implementation is external to the repository.
-/

/-- Modelled from the spec: the Item Model of section 3.  The closed set of
conversation-history variants produced during a run.  A caller-supplied user
message is represented as a `message` whose agent tag is the string "user". -/
inductive Item where
  | message (agent content : String)
  | toolCall (agent name args : String)
  | toolOutput (agent result : String)
  | handoffOutput (source target : String)
deriving DecidableEq

/-- Modelled from the spec: the `input_history` field of `HandoffInputData`
may be either the original raw caller input or a sequence, and the
representation must preserve the type so a filter can distinguish a raw
string from a structured history. -/
inductive InputHistory where
  | raw (s : String)
  | items (xs : List Item)
deriving DecidableEq

/-- Modelled from the spec: a raw caller input stands for the single user
message carrying it; a structured history is its own item list. -/
def InputHistory.toItems : InputHistory → List Item
  | .raw s => [Item.message "user" s]
  | .items xs => xs

/-- Modelled from the spec: the `HandoffInputData` triple of section 3
(`input_history`, `pre_handoff_items`, `new_items`), whose concatenation is
required to reconstruct the full pre-transition transcript. -/
structure HandoffInputData where
  input_history : InputHistory
  pre_handoff_items : List Item
  new_items : List Item
deriving DecidableEq

/-- Modelled from the spec: the concatenation `input_history ++
pre_handoff_items ++ new_items` of a `HandoffInputData` triple, the full
transcript it represents. -/
def HandoffInputData.transcript (d : HandoffInputData) : List Item :=
  d.input_history.toItems ++ d.pre_handoff_items ++ d.new_items

/-- Embedding of `spanish_handoff_message_filter` from
`examples/handoffs/message_filter.py`: the input history is sliced from its
third element on when it is a tuple and left unchanged otherwise, and the
two item fields are passed through (the Python source merely converts them
to tuples, which does not change their elements). -/
def spanish_handoff_message_filter (d : HandoffInputData) : HandoffInputData :=
  { input_history :=
      match d.input_history with
      | .items xs => .items (xs.drop 2)
      | .raw s => .raw s,
    pre_handoff_items := d.pre_handoff_items,
    new_items := d.new_items }

/-- Concrete `HandoffInputData` with a three-element tuple history, matching
the situation of step 4 of `examples/handoffs/message_filter.py` in which
the filter fires with several prior messages in the history. -/
def filterCounterexampleData : HandoffInputData :=
  { input_history := .items
      [Item.message "user" "Hi, my name is Sora.",
       Item.message "Assistant" "Hello Sora.",
       Item.message "user" "Por favor habla en espanol."],
    pre_handoff_items := [],
    new_items := [Item.handoffOutput "Assistant" "Spanish Assistant"] }

/-- Modelled from the spec: the outcome of a single model invocation in
section 6 — plain content, one or more tool invocations, or a handoff
pseudo-tool call (a handoff target is referenced by agent name). -/
inductive ModelResponse where
  | content (text : String)
  | toolCalls (calls : List (String × String))
  | handoffCall (target : String)

/-- Modelled from the spec: a Tool of section 3 — a name, a description, and
an invocation function taking the run context and the serialized arguments
and returning a result string (possibly with a mutated context, since side
effects on context are permitted) or an error; section 7 allows a tool to be
marked fatal on error. -/
structure Tool (C : Type) where
  name : String
  description : String := ""
  run : C → String → Except String (String × C)
  failureIsFatal : Bool := false

/-- Modelled from the spec: a Handoff of section 3 — target agent
(referenced by name), optional input filter and optional side-effect
callback on the run context. -/
structure Handoff (C : Type) where
  targetName : String
  input_filter : Option (HandoffInputData → HandoffInputData) := none
  on_handoff : Option (C → C) := none

/-- Modelled from the spec: instructions are a tagged union of a static
string and a function of the context and the active agent, whose evaluation
is fallible (`none` models an error raised during evaluation). -/
inductive Instructions (C : Type) where
  | static (s : String)
  | dynamic (f : C → String → Option String)

/-- Modelled from the spec: an Agent of section 3 — name, instructions,
ordered tools and ordered handoff targets. -/
structure Agent (C : Type) where
  name : String
  instructions : Instructions C
  tools : List (Tool C) := []
  handoffs : List (Handoff C) := []

/-- Modelled from the spec: instruction resolution at the start of a turn;
the dynamic variant is evaluated fresh on the current context. -/
def resolveInstructions {C : Type} : Instructions C → C → String → Option String
  | .static s, _, _ => some s
  | .dynamic f, ctx, a => f ctx a

/-- Modelled from the spec: the two hook dispatch scopes of section 4.2. -/
inductive HookScope where
  | agentScope
  | globalScope
deriving DecidableEq

/-- Modelled from the spec: the lifecycle events of section 4.2, tagged with
the names of the agents involved. -/
inductive HookEvent where
  | start (agent : String)
  | finish (agent : String) (output : String)
  | handoff (source target : String)
  | toolStart (agent tool : String)
  | toolEnd (agent tool result : String)
deriving DecidableEq

/-- Modelled from the spec: for every lifecycle event both scopes are
notified, agent hook first. -/
def notifyBoth (e : HookEvent) : List (HookScope × HookEvent) :=
  [(HookScope.agentScope, e), (HookScope.globalScope, e)]

/-- Modelled from the spec: the error taxonomy of section 7 that the runner
can terminate with; every error carries the items produced before the
failure. -/
inductive RunError where
  | maxTurnsExceeded (items : List Item)
  | configError (items : List Item)
  | toolError (msg : String) (items : List Item)
  | modelError (items : List Item)

/-- Modelled from the spec: the item list an error preserves. -/
def RunError.items : RunError → List Item
  | .maxTurnsExceeded xs => xs
  | .configError xs => xs
  | .toolError _ xs => xs
  | .modelError xs => xs

/-- Modelled from the spec: the `RunResult` of section 3 — final output,
every item produced during the run in order, the agent active at
termination, plus the (possibly filter-rewritten) input, the number of
turns taken and the instruction strings resolved one per turn. -/
structure RunResult where
  final_output : String
  new_items : List Item
  last_agent : String
  input : List Item
  turns : Nat
  resolved_instructions : List String

/-- Modelled from the spec: `to_input_list` projects a whole run back into
replayable input form, the input followed by every produced item. -/
def RunResult.to_input_list (r : RunResult) : List Item :=
  r.input ++ r.new_items

/-- Modelled from the spec: the `HandoffInputData` triple the runner builds
at a handoff from the accumulated input, the items of previous agents and
the current agent's items including the handoff item itself. -/
def mkHandoffInputData (input pre new : List Item) : HandoffInputData :=
  { input_history := .items input, pre_handoff_items := pre, new_items := new }

/-- Modelled from the spec: applying a handoff's input filter, the default
being the identity. -/
def applyInputFilter {C : Type} (h : Handoff C) (d : HandoffInputData) :
    HandoffInputData :=
  match h.input_filter with
  | none => d
  | some f => f d

/-- Modelled from the spec: the result of one batch of tool invocations —
the final context, the produced items in request order, the emitted hook
events, and an error message when a fatal-on-error tool failed. -/
structure ToolBatchResult (C : Type) where
  ctx : C
  items : List Item
  events : List (HookScope × HookEvent)
  fatal : Option String

/-- Modelled from the spec, section 4.4: execute a batch of tool calls.
Each call produces a `ToolCallItem` and a `ToolCallOutputItem`; a failure of
a tool not marked fatal is converted into a `ToolCallOutputItem` carrying an
error description instead of aborting; outputs are appended in request
order; `on_tool_start` and `on_tool_end` are emitted around each call.  A
call naming no registered tool is a validation failure reported the same
recoverable way. -/
def runToolCalls {C : Type} (agent : Agent C) (ctx : C) :
    List (String × String) → ToolBatchResult C
  | [] => { ctx := ctx, items := [], events := [], fatal := none }
  | (n, args) :: rest =>
    match agent.tools.find? (fun t => t.name = n) with
    | none =>
      let errOut := "Error: unknown tool " ++ n
      let b := runToolCalls agent ctx rest
      { b with
        items := [Item.toolCall agent.name n args,
                  Item.toolOutput agent.name errOut] ++ b.items }
    | some t =>
      match t.run ctx args with
      | .ok (res, ctx1) =>
        let b := runToolCalls agent ctx1 rest
        { b with
          items := [Item.toolCall agent.name n args,
                    Item.toolOutput agent.name res] ++ b.items,
          events := notifyBoth (.toolStart agent.name n) ++
                    notifyBoth (.toolEnd agent.name n res) ++ b.events }
      | .error e =>
        if t.failureIsFatal then
          { ctx := ctx,
            items := [Item.toolCall agent.name n args],
            events := notifyBoth (.toolStart agent.name n),
            fatal := some e }
        else
          let errOut := "An error occurred while running the tool: " ++ e
          let b := runToolCalls agent ctx rest
          { b with
            items := [Item.toolCall agent.name n args,
                      Item.toolOutput agent.name errOut] ++ b.items,
            events := notifyBoth (.toolStart agent.name n) ++
                      notifyBoth (.toolEnd agent.name n errOut) ++ b.events }

/-- Modelled from the spec, section 4.1: the per-turn state machine of the
Runner.  The model capability is represented by a pre-determined script of
responses, one consumed per turn.  The state carries the (possibly
filter-rewritten) input items, the items of previous agents (`preItems`),
the items of the currently active agent (`curItems`), the emitted scoped
hook events, the instruction strings resolved so far (one per turn) and
the number of turns completed; `fuel` is the number of turns still allowed,
so reaching zero is the terminal max-turns failure, carrying the items
produced so far.  Each turn resolves instructions (a dynamic-instruction
failure aborts with a configuration error before any model call), consumes
a model response, and either finalizes on plain content, executes the tool
batch and loops with the same agent, or constructs the `HandoffInputData`
triple, applies the handoff's filter, runs its context callback and
switches to the target agent.  `on_start` is emitted at the start of every
turn and a handoff is announced with the source agent's hooks, matching the
recorded transcript of `examples/basic/agent_lifecycle_example.py`. -/
def runLoop {C : Type} (env : List (Agent C)) :
    List ModelResponse → Nat → Agent C → C →
    List Item → List Item → List Item →
    List (HookScope × HookEvent) → List String → Nat →
    (Except RunError RunResult) × List (HookScope × HookEvent)
  | _script, 0, _agent, _ctx, _input, preItems, curItems, events, _instrs, _turns =>
    (.error (.maxTurnsExceeded (preItems ++ curItems)), events)
  | script, fuel + 1, agent, ctx, input, preItems, curItems, events, instrs, turns =>
    let events := events ++ notifyBoth (.start agent.name)
    match resolveInstructions agent.instructions ctx agent.name with
    | none => (.error (.configError (preItems ++ curItems)), events)
    | some instr =>
      let instrs := instrs ++ [instr]
      match script with
      | [] => (.error (.modelError (preItems ++ curItems)), events)
      | resp :: rest =>
        match resp with
        | .content t =>
          let events := events ++ notifyBoth (.finish agent.name t)
          (.ok { final_output := t,
                 new_items := preItems ++ curItems ++ [Item.message agent.name t],
                 last_agent := agent.name,
                 input := input,
                 turns := turns + 1,
                 resolved_instructions := instrs }, events)
        | .toolCalls calls =>
          let b := runToolCalls agent ctx calls
          match b.fatal with
          | some e =>
            (.error (.toolError e (preItems ++ curItems ++ b.items)),
             events ++ b.events)
          | none =>
            runLoop env rest fuel agent b.ctx input preItems (curItems ++ b.items)
              (events ++ b.events) instrs (turns + 1)
        | .handoffCall target =>
          match agent.handoffs.find? (fun h => h.targetName = target) with
          | none => (.error (.configError (preItems ++ curItems)), events)
          | some h =>
            match env.find? (fun a => a.name = target) with
            | none => (.error (.configError (preItems ++ curItems)), events)
            | some targetAgent =>
              let hItem := Item.handoffOutput agent.name target
              let d := applyInputFilter h
                (mkHandoffInputData input preItems (curItems ++ [hItem]))
              let ctx1 := match h.on_handoff with
                          | some f => f ctx
                          | none => ctx
              let events := events ++ notifyBoth (.handoff agent.name target)
              runLoop env rest fuel targetAgent ctx1
                d.input_history.toItems (d.pre_handoff_items ++ d.new_items) []
                events instrs (turns + 1)

/-- Modelled from the spec: the primary entry point of section 4.1 — given
a starting agent, an input item list, a context and a max-turn limit, run
the state machine from the empty accumulated state, returning the outcome
and the full scoped hook-event trace. -/
def Runner.run {C : Type} (env : List (Agent C)) (script : List ModelResponse)
    (maxTurns : Nat) (agent : Agent C) (ctx : C) (input : List Item) :
    (Except RunError RunResult) × List (HookScope × HookEvent) :=
  runLoop env script maxTurns agent ctx input [] [] [] [] 0

/-- The agent-scope projection of a scoped hook-event trace, the sequence a
per-agent hooks instance observes. -/
def agentScopeEvents (evs : List (HookScope × HookEvent)) : List HookEvent :=
  evs.filterMap (fun p => if p.1 = HookScope.agentScope then some p.2 else none)

/-- The item list an outcome exposes: the produced items of a successful
result, or the items preserved by an error. -/
def outcomeItems : Except RunError RunResult → List Item
  | .ok r => r.new_items
  | .error e => e.items

/-- `InitSeg xs ys` states that `xs` is an initial segment of `ys`: the
replay relation the specification calls prefix-equality. -/
def InitSeg (xs ys : List Item) : Prop :=
  ∃ t, xs ++ t = ys

instance (xs ys : List Item) : Decidable (InitSeg xs ys) :=
  decidable_of_iff (ys.take xs.length = xs)
    (by
      constructor
      · intro h
        refine ⟨ys.drop xs.length, ?_⟩
        calc xs ++ ys.drop xs.length
            = ys.take xs.length ++ ys.drop xs.length := by rw [h]
          _ = ys := List.take_append_drop _ _
      · rintro ⟨t, rfl⟩
        simp [List.take_left])

/-- The ordering constraint the specification asserts for `on_start`: an
agent's hooks receive `on_start` only on that agent's first turn, hence at
most once in a run's event sequence. -/
def startOnlyFirstTurn (evs : List HookEvent) (a : String) : Prop :=
  evs.count (HookEvent.start a) ≤ 1

/-- Decimal reading of a serialized numeric tool argument, standing in for
the argument deserialization of section 4.4. -/
def parseNat (s : String) : Nat :=
  s.data.foldl (fun n c => 10 * n + (c.toNat - 48)) 0

/-- Embedding of the `random_number` tool of
`examples/basic/agent_lifecycle_example.py`, with the random draw fixed to
the value 37 recorded in the module docstring transcript. -/
def random_number : Tool Unit :=
  { name := "random_number",
    description := "Generate a random number up to the provided maximum.",
    run := fun ctx _args => .ok ("37", ctx) }

/-- Embedding of the `multiply_by_two` tool of
`examples/basic/agent_lifecycle_example.py`: multiplication of the argument
by two. -/
def multiply_by_two : Tool Unit :=
  { name := "multiply_by_two",
    description := "Simple multiplication by two.",
    run := fun ctx args => .ok (toString (2 * parseNat args), ctx) }

/-- Embedding of `multiply_agent` from
`examples/basic/agent_lifecycle_example.py`. -/
def multiply_agent : Agent Unit :=
  { name := "Multiply Agent",
    instructions := .static
      "Multiply the number by 2 and then return the final result as a number.",
    tools := [multiply_by_two] }

/-- Embedding of `start_agent` from
`examples/basic/agent_lifecycle_example.py`: its handoff list holds the
multiply agent with no filter and no callback. -/
def start_agent : Agent Unit :=
  { name := "Start Agent",
    instructions := .static
      "Generate a random number. If it's even, stop. If it's odd, hand off to the multipler agent.",
    tools := [random_number],
    handoffs := [{ targetName := "Multiply Agent" }] }

/-- The agent environment of `examples/basic/agent_lifecycle_example.py`. -/
def lifecycleEnv : List (Agent Unit) := [start_agent, multiply_agent]

/-- The model responses reconstructing the run recorded in the module
docstring of `examples/basic/agent_lifecycle_example.py`: a tool turn, a
handoff turn, a tool turn of the target agent and a final content turn. -/
def lifecycleScript : List ModelResponse :=
  [.toolCalls [("random_number", "250")],
   .handoffCall "Multiply Agent",
   .toolCalls [("multiply_by_two", "37")],
   .content "number=74"]

/-- The user input of the recorded run of
`examples/basic/agent_lifecycle_example.py`. -/
def lifecycleInput : List Item :=
  [Item.message "user" "Generate a random number between 0 and 250."]

/-- Embedded from the module docstring of
`examples/basic/agent_lifecycle_example.py` (lines 131 to 146): the
sequence of per-agent hook notifications printed by `CustomAgentHooks`
during the recorded run, in order.  The Start Agent hooks instance printed
five events (started, tool started, tool ended, started again, handed off)
and the Multiply Agent hooks instance printed five events (started, tool
started, tool ended, started again, ended). -/
def lifecycleTranscript : List HookEvent :=
  [.start "Start Agent",
   .toolStart "Start Agent" "random_number",
   .toolEnd "Start Agent" "random_number" "37",
   .start "Start Agent",
   .handoff "Start Agent" "Multiply Agent",
   .start "Multiply Agent",
   .toolStart "Multiply Agent" "multiply_by_two",
   .toolEnd "Multiply Agent" "multiply_by_two" "74",
   .start "Multiply Agent",
   .finish "Multiply Agent" "number=74"]

/-- Embedding of `first_agent` from `examples/handoffs/message_filter.py`. -/
def first_agent : Agent Unit :=
  { name := "Simple Assistant",
    instructions := .static "Be extremely concise." }

/-- Embedding of `spanish_agent` from
`examples/handoffs/message_filter.py`. -/
def spanish_agent : Agent Unit :=
  { name := "Spanish Assistant",
    instructions := .static "You only speak Spanish and are extremely concise." }

/-- Embedding of `second_agent` from `examples/handoffs/message_filter.py`:
its single handoff targets the Spanish assistant with
`spanish_handoff_message_filter` as the input filter. -/
def second_agent : Agent Unit :=
  { name := "Assistant",
    instructions := .static
      "Be a helpful assistant. If the user speaks Spanish, handoff to the Spanish assistant.",
    handoffs := [{ targetName := "Spanish Assistant",
                   input_filter := some spanish_handoff_message_filter }] }

/-- The agent environment of `examples/handoffs/message_filter.py`. -/
def messageFilterEnv : List (Agent Unit) :=
  [first_agent, spanish_agent, second_agent]

/-- The caller input of the replay counterexample run. -/
def replayInput : List Item :=
  [Item.message "user" "Hi, my name is Sora."]

/-- Script of the first replay run: a single plain-content turn. -/
def replayScript1 : List ModelResponse := [.content "Hello Sora."]

/-- Script of the second replay run: the model chooses the filtered handoff
to the Spanish assistant, which then answers, mirroring step 4 of
`examples/handoffs/message_filter.py`. -/
def replayScript2 : List ModelResponse :=
  [.handoffCall "Spanish Assistant", .content "Hola Sora."]

/-- The result of the first replay run, computed by the runner model. -/
def replayFirstResult : RunResult :=
  { final_output := "Hello Sora.",
    new_items := [Item.message "Assistant" "Hello Sora."],
    last_agent := "Assistant",
    input := replayInput,
    turns := 1,
    resolved_instructions :=
      ["Be a helpful assistant. If the user speaks Spanish, handoff to the Spanish assistant."] }

/-- The result of the second replay run: the handoff filter dropped the
first two history elements, so the surviving input history is empty and the
run's transcript no longer extends the first run's transcript. -/
def replaySecondResult : RunResult :=
  { final_output := "Hola Sora.",
    new_items := [Item.handoffOutput "Assistant" "Spanish Assistant",
                  Item.message "Spanish Assistant" "Hola Sora."],
    last_agent := "Spanish Assistant",
    input := [],
    turns := 2,
    resolved_instructions :=
      ["Be a helpful assistant. If the user speaks Spanish, handoff to the Spanish assistant.",
       "You only speak Spanish and are extremely concise."] }

/-- The result of a filter-free first run used to witness the replay
property: `first_agent` answers a single message. -/
def witnessFirstResult : RunResult :=
  { final_output := "Hi Sora.",
    new_items := [Item.message "Simple Assistant" "Hi Sora."],
    last_agent := "Simple Assistant",
    input := [Item.message "user" "Hi, my name is Sora."],
    turns := 1,
    resolved_instructions := ["Be extremely concise."] }

/-- The result of replaying `witnessFirstResult` against the same agent
with no filters anywhere: the prior transcript is extended in place. -/
def witnessSecondResult : RunResult :=
  { final_output := "Again.",
    new_items := [Item.message "Simple Assistant" "Again."],
    last_agent := "Simple Assistant",
    input := witnessFirstResult.to_input_list,
    turns := 1,
    resolved_instructions := ["Be extremely concise."] }

/-- Embedding of `AirlineAgentContext` from
`examples/customer_service/main.py`: four optional string fields, all
absent by default. -/
structure AirlineAgentContext where
  passenger_name : Option String := none
  confirmation_number : Option String := none
  seat_number : Option String := none
  flight_number : Option String := none
deriving DecidableEq

/-- Embedding of `on_seat_booking_handoff` from
`examples/customer_service/main.py`: the draw of
`random.randint(100, 999)` is passed as a parameter, and the callback sets
`flight_number` to the string "FLT-" followed by that draw, touching no
other field. -/
def on_seat_booking_handoff (draw : Nat) (context : AirlineAgentContext) :
    AirlineAgentContext :=
  { context with flight_number := some ("FLT-" ++ toString draw) }

/-- Embedding of the first handoff of `triage_agent.handoffs` in
`examples/customer_service/main.py`: a plain agent reference, hence a
handoff with no input filter and no callback. -/
def faq_handoff : Handoff AirlineAgentContext :=
  { targetName := "FAQ Agent" }

/-- Embedding of the style tag of `CustomContext` from
`examples/basic/dynamic_system_prompt.py`. -/
inductive Style where
  | haiku
  | pirate
  | robot
deriving DecidableEq

/-- Embedding of `CustomContext` from
`examples/basic/dynamic_system_prompt.py`. -/
structure CustomContext where
  style : Style

/-- Embedding of `custom_instructions` from
`examples/basic/dynamic_system_prompt.py`: a pure function of the run
context (and the active agent, which it ignores) selecting the instruction
string from the context's style. -/
def custom_instructions (run_context : CustomContext) (_agent : String) :
    String :=
  match run_context.style with
  | .haiku => "Only respond in haikus."
  | .pirate => "Respond as a pirate."
  | .robot => "Respond as a robot and say 'beep boop' a lot."

/-- Embedding of the agent of `examples/basic/dynamic_system_prompt.py`
(named `agent` in the source), whose instructions are the
`custom_instructions` function. -/
def chat_agent : Agent CustomContext :=
  { name := "Chat agent",
    instructions := .dynamic (fun ctx a => some (custom_instructions ctx a)) }

/-- Model scaffolding for the freshness of dynamic instructions: a tool
that increments a counter context, so the context visibly changes between
turns. -/
def bump_tool : Tool Nat :=
  { name := "bump",
    run := fun n _args => .ok ("bumped", n + 1) }

/-- Model scaffolding: an agent whose dynamic instructions render the
current counter context, so a fresh evaluation per turn is observable. -/
def counting_agent : Agent Nat :=
  { name := "Counting Agent",
    instructions := .dynamic (fun n _ => some ("Context counter is " ++ toString n)),
    tools := [bump_tool] }

/-- Script of the freshness scenario: one context-mutating tool turn, then
a final content turn. -/
def countingScript : List ModelResponse :=
  [.toolCalls [("bump", "")], .content "done"]

/-- The result of the freshness scenario: two turns, two distinct resolved
instruction strings, each rendered from the context current at its turn. -/
def countingResult : RunResult :=
  { final_output := "done",
    new_items := [Item.toolCall "Counting Agent" "bump" "",
                  Item.toolOutput "Counting Agent" "bumped",
                  Item.message "Counting Agent" "done"],
    last_agent := "Counting Agent",
    input := [],
    turns := 2,
    resolved_instructions := ["Context counter is 0", "Context counter is 1"] }

/-- Model scaffolding: an agent whose dynamic instructions always fail to
evaluate. -/
def failing_agent : Agent Unit :=
  { name := "Failing Agent",
    instructions := .dynamic (fun _ _ => none) }

/-- Embedding of the agent of `examples/basic/hello_world_jupyter.py`
(named `agent` in the source): no tools and no handoffs. -/
def jupyter_agent : Agent Unit :=
  { name := "Assistant",
    instructions := .static "You are a helpful assistant" }

/-- Model scaffolding for the turn-limit scenario: a tool that always
succeeds, echoing its argument. -/
def step_tool : Tool Unit :=
  { name := "step",
    run := fun ctx args => .ok ("ok " ++ args, ctx) }

/-- Model scaffolding: an agent that keeps calling `step_tool`, so a low
turn limit is exceeded. -/
def loop_agent : Agent Unit :=
  { name := "Loop Agent",
    instructions := .static "Keep calling the step tool.",
    tools := [step_tool] }

/-- Script of the turn-limit scenario: three tool turns against a limit of
two. -/
def turnLimitScript : List ModelResponse :=
  [.toolCalls [("step", "1")], .toolCalls [("step", "2")],
   .toolCalls [("step", "3")]]

/-- Model scaffolding: a tool whose invocation always fails with a
validation error, not marked fatal, as with a schema-invalid payload. -/
def broken_tool : Tool Unit :=
  { name := "broken",
    run := fun _ _ => .error "invalid arguments" }

/-- Model scaffolding: the same failing tool marked fatal on error. -/
def fatal_tool : Tool Unit :=
  { name := "fatal",
    run := fun _ _ => .error "invalid arguments",
    failureIsFatal := true }

/-- Model scaffolding: an agent holding the recoverable failing tool. -/
def broken_agent : Agent Unit :=
  { name := "Tool Agent",
    instructions := .static "Use the tool.",
    tools := [broken_tool] }

/-- Model scaffolding: an agent holding the fatal failing tool. -/
def fatal_agent : Agent Unit :=
  { name := "Tool Agent",
    instructions := .static "Use the tool.",
    tools := [fatal_tool] }

theorem initSeg_refl (a : List Item) : InitSeg a a := ⟨[], by simp⟩

theorem initSeg_extend (a b c : List Item) : InitSeg (a ++ b) (a ++ b ++ c) :=
  ⟨c, rfl⟩

theorem initSeg_extend2 (a b c : List Item) : InitSeg (a ++ b) (a ++ (b ++ c)) :=
  ⟨c, by simp⟩

theorem initSeg_trans {a b c : List Item} (h1 : InitSeg a b)
    (h2 : InitSeg b c) : InitSeg a c := by
  obtain ⟨t1, rfl⟩ := h1
  obtain ⟨t2, rfl⟩ := h2
  exact ⟨t1 ++ t2, by simp⟩

/-- Every successful run resolves instructions exactly once per turn: the
run loop preserves the invariant that the resolved-instruction count equals
the completed-turn count. -/
theorem runLoop_ok_turns {C : Type} (env : List (Agent C)) :
    ∀ (fuel : Nat) (script : List ModelResponse) (agent : Agent C) (ctx : C)
      (input pre cur : List Item) (evs : List (HookScope × HookEvent))
      (instrs : List String) (turns : Nat) (r : RunResult),
      instrs.length = turns →
      (runLoop env script fuel agent ctx input pre cur evs instrs turns).1 = .ok r →
      r.resolved_instructions.length = r.turns := by
  intro fuel
  induction fuel with
  | zero =>
    intro script agent ctx input pre cur evs instrs turns r _ hok
    simp [runLoop] at hok
  | succ fuel ih =>
    intro script agent ctx input pre cur evs instrs turns r hlen hok
    simp only [runLoop] at hok
    split at hok
    · simp at hok
    · split at hok
      · simp at hok
      · split at hok
        · simp at hok
          subst hok
          simp [hlen]
        · split at hok
          · simp at hok
          · exact ih _ _ _ _ _ _ _ _ _ _ (by simp [hlen]) hok
        · split at hok
          · simp at hok
          · split at hok
            · simp at hok
            · exact ih _ _ _ _ _ _ _ _ _ _ (by simp [hlen]) hok

/-- When every handoff in reach carries no input filter, the run loop only
appends to the accumulated item list: whatever items are present on entry
are an initial segment of the items exposed by the outcome, successful or
failed.  No error condition discards completed turns. -/
theorem runLoop_items_extend {C : Type} (env : List (Agent C))
    (henv : ∀ a ∈ env, ∀ h ∈ a.handoffs, h.input_filter = none) :
    ∀ (fuel : Nat) (script : List ModelResponse) (agent : Agent C) (ctx : C)
      (input pre cur : List Item) (evs : List (HookScope × HookEvent))
      (instrs : List String) (turns : Nat),
      (∀ h ∈ agent.handoffs, h.input_filter = none) →
      InitSeg (pre ++ cur)
        (outcomeItems (runLoop env script fuel agent ctx input pre cur evs instrs turns).1) := by
  intro fuel
  induction fuel with
  | zero =>
    intro script agent ctx input pre cur evs instrs turns _
    simp only [runLoop, outcomeItems, RunError.items]
    exact initSeg_refl _
  | succ fuel ih =>
    intro script agent ctx input pre cur evs instrs turns hagent
    cases hres : resolveInstructions agent.instructions ctx agent.name with
    | none =>
      simp only [runLoop, hres, outcomeItems, RunError.items]
      exact initSeg_refl _
    | some instr =>
      cases script with
      | nil =>
        simp only [runLoop, hres, outcomeItems, RunError.items]
        exact initSeg_refl _
      | cons resp rest =>
        cases resp with
        | content t =>
          simp only [runLoop, hres, outcomeItems]
          exact initSeg_extend _ _ _
        | toolCalls calls =>
          cases hb : (runToolCalls agent ctx calls).fatal with
          | some e =>
            simp only [runLoop, hres, hb, outcomeItems, RunError.items]
            exact initSeg_extend _ _ _
          | none =>
            simp only [runLoop, hres, hb]
            exact initSeg_trans (initSeg_extend2 _ _ _)
              (ih _ _ _ _ _ _ _ _ _ hagent)
        | handoffCall target =>
          cases hfind : agent.handoffs.find? (fun h => h.targetName = target) with
          | none =>
            simp only [runLoop, hres, hfind, outcomeItems, RunError.items]
            exact initSeg_refl _
          | some h =>
            cases henvfind : env.find? (fun a => a.name = target) with
            | none =>
              simp only [runLoop, hres, hfind, henvfind, outcomeItems,
                RunError.items]
              exact initSeg_refl _
            | some targetAgent =>
              have hfil : h.input_filter = none :=
                hagent h (List.mem_of_find?_eq_some hfind)
              have htmem : targetAgent ∈ env := List.mem_of_find?_eq_some henvfind
              simp only [runLoop, hres, hfind, henvfind, applyInputFilter, hfil,
                mkHandoffInputData, InputHistory.toItems]
              refine initSeg_trans (initSeg_extend2 pre cur
                [Item.handoffOutput agent.name target]) ?_
              exact initSeg_trans ⟨[], by simp⟩
                (ih _ _ _ _ _ _ _ _ _ (henv targetAgent htmem))

/-- When every handoff in reach carries no input filter, a successful run
leaves its input untouched: the result's `input` field is the input the
loop was entered with. -/
theorem runLoop_ok_input {C : Type} (env : List (Agent C))
    (henv : ∀ a ∈ env, ∀ h ∈ a.handoffs, h.input_filter = none) :
    ∀ (fuel : Nat) (script : List ModelResponse) (agent : Agent C) (ctx : C)
      (input pre cur : List Item) (evs : List (HookScope × HookEvent))
      (instrs : List String) (turns : Nat) (r : RunResult),
      (∀ h ∈ agent.handoffs, h.input_filter = none) →
      (runLoop env script fuel agent ctx input pre cur evs instrs turns).1 = .ok r →
      r.input = input := by
  intro fuel
  induction fuel with
  | zero =>
    intro script agent ctx input pre cur evs instrs turns r _ hok
    simp [runLoop] at hok
  | succ fuel ih =>
    intro script agent ctx input pre cur evs instrs turns r hagent hok
    cases hres : resolveInstructions agent.instructions ctx agent.name with
    | none => simp [runLoop, hres] at hok
    | some instr =>
      cases script with
      | nil => simp [runLoop, hres] at hok
      | cons resp rest =>
        cases resp with
        | content t =>
          simp only [runLoop, hres] at hok
          simp at hok
          subst hok
          rfl
        | toolCalls calls =>
          cases hb : (runToolCalls agent ctx calls).fatal with
          | some e => simp [runLoop, hres, hb] at hok
          | none =>
            simp only [runLoop, hres, hb] at hok
            exact ih _ _ _ _ _ _ _ _ _ _ hagent hok
        | handoffCall target =>
          cases hfind : agent.handoffs.find? (fun h => h.targetName = target) with
          | none => simp [runLoop, hres, hfind] at hok
          | some h =>
            cases henvfind : env.find? (fun a => a.name = target) with
            | none => simp [runLoop, hres, hfind, henvfind] at hok
            | some targetAgent =>
              have hfil : h.input_filter = none :=
                hagent h (List.mem_of_find?_eq_some hfind)
              have htmem : targetAgent ∈ env := List.mem_of_find?_eq_some henvfind
              simp only [runLoop, hres, hfind, henvfind, applyInputFilter, hfil,
                mkHandoffInputData, InputHistory.toItems] at hok
              exact ih _ _ _ _ _ _ _ _ _ _ (henv targetAgent htmem) hok

/-- Every tool batch emits its hook events strictly as agent-scope copy
immediately followed by the global-scope copy of the same event: the batch
trace is `notifyBoth` flat-mapped over some event list. -/
theorem runToolCalls_events_paired {C : Type} (agent : Agent C) :
    ∀ (calls : List (String × String)) (ctx : C),
      ∃ es : List HookEvent,
        (runToolCalls agent ctx calls).events = es.flatMap notifyBoth := by
  intro calls
  induction calls with
  | nil => intro ctx; exact ⟨[], by simp [runToolCalls]⟩
  | cons c rest ih =>
    intro ctx
    obtain ⟨n, args⟩ := c
    cases hfind : agent.tools.find? (fun t => t.name = n) with
    | none =>
      obtain ⟨es, hes⟩ := ih ctx
      exact ⟨es, by simp [runToolCalls, hfind, hes]⟩
    | some t =>
      cases hrun : t.run ctx args with
      | ok pair =>
        obtain ⟨res, ctx1⟩ := pair
        obtain ⟨es, hes⟩ := ih ctx1
        exact ⟨HookEvent.toolStart agent.name n ::
               HookEvent.toolEnd agent.name n res :: es,
          by simp [runToolCalls, hfind, hrun, hes]⟩
      | error e =>
        cases hf : t.failureIsFatal with
        | true =>
          exact ⟨[HookEvent.toolStart agent.name n],
            by simp [runToolCalls, hfind, hrun, hf]⟩
        | false =>
          obtain ⟨es, hes⟩ := ih ctx
          exact ⟨HookEvent.toolStart agent.name n ::
                 HookEvent.toolEnd agent.name n
                   ("An error occurred while running the tool: " ++ e) :: es,
            by simp [runToolCalls, hfind, hrun, hf, hes]⟩

/-- Every run whose entering trace is a sequence of agent-then-global pairs
leaves the whole trace in that shape: for every lifecycle event of any run,
the agent hook is notified immediately before the global hook. -/
theorem runLoop_events_paired {C : Type} (env : List (Agent C)) :
    ∀ (fuel : Nat) (script : List ModelResponse) (agent : Agent C) (ctx : C)
      (input pre cur : List Item) (evs : List (HookScope × HookEvent))
      (es0 : List HookEvent) (instrs : List String) (turns : Nat),
      evs = es0.flatMap notifyBoth →
      ∃ es : List HookEvent,
        (runLoop env script fuel agent ctx input pre cur evs instrs turns).2
          = es.flatMap notifyBoth := by
  intro fuel
  induction fuel with
  | zero =>
    intro script agent ctx input pre cur evs es0 instrs turns hevs
    exact ⟨es0, by simp [runLoop, hevs]⟩
  | succ fuel ih =>
    intro script agent ctx input pre cur evs es0 instrs turns hevs
    cases hres : resolveInstructions agent.instructions ctx agent.name with
    | none =>
      exact ⟨es0 ++ [HookEvent.start agent.name],
        by simp [runLoop, hres, hevs]⟩
    | some instr =>
      cases script with
      | nil =>
        exact ⟨es0 ++ [HookEvent.start agent.name],
          by simp [runLoop, hres, hevs]⟩
      | cons resp rest =>
        cases resp with
        | content t =>
          exact ⟨es0 ++ [HookEvent.start agent.name,
                         HookEvent.finish agent.name t],
            by simp [runLoop, hres, hevs]⟩
        | toolCalls calls =>
          obtain ⟨esb, hesb⟩ := runToolCalls_events_paired agent calls ctx
          cases hb : (runToolCalls agent ctx calls).fatal with
          | some e =>
            exact ⟨es0 ++ HookEvent.start agent.name :: esb,
              by simp [runLoop, hres, hb, hevs, hesb]⟩
          | none =>
            simp only [runLoop, hres, hb]
            exact ih _ _ _ _ _ _ _ (es0 ++ HookEvent.start agent.name :: esb)
              _ _ (by simp [hevs, hesb])
        | handoffCall target =>
          cases hfind : agent.handoffs.find? (fun h => h.targetName = target) with
          | none =>
            exact ⟨es0 ++ [HookEvent.start agent.name],
              by simp [runLoop, hres, hfind, hevs]⟩
          | some h =>
            cases henvfind : env.find? (fun a => a.name = target) with
            | none =>
              exact ⟨es0 ++ [HookEvent.start agent.name],
                by simp [runLoop, hres, hfind, henvfind, hevs]⟩
            | some targetAgent =>
              simp only [runLoop, hres, hfind, henvfind]
              exact ih _ _ _ _ _ _ _
                (es0 ++ [HookEvent.start agent.name,
                         HookEvent.handoff agent.name target])
                _ _ (by simp [hevs])

/-- The run loop only appends to the hook-event trace it is entered with. -/
theorem runLoop_events_extend {C : Type} (env : List (Agent C)) :
    ∀ (fuel : Nat) (script : List ModelResponse) (agent : Agent C) (ctx : C)
      (input pre cur : List Item) (evs : List (HookScope × HookEvent))
      (instrs : List String) (turns : Nat),
      ∃ tail : List (HookScope × HookEvent),
        (runLoop env script fuel agent ctx input pre cur evs instrs turns).2
          = evs ++ tail := by
  intro fuel
  induction fuel with
  | zero =>
    intro script agent ctx input pre cur evs instrs turns
    exact ⟨[], by simp [runLoop]⟩
  | succ fuel ih =>
    intro script agent ctx input pre cur evs instrs turns
    cases hres : resolveInstructions agent.instructions ctx agent.name with
    | none =>
      exact ⟨notifyBoth (.start agent.name), by simp [runLoop, hres]⟩
    | some instr =>
      cases script with
      | nil =>
        exact ⟨notifyBoth (.start agent.name), by simp [runLoop, hres]⟩
      | cons resp rest =>
        cases resp with
        | content t =>
          exact ⟨notifyBoth (.start agent.name) ++
                 notifyBoth (.finish agent.name t),
            by simp [runLoop, hres]⟩
        | toolCalls calls =>
          cases hb : (runToolCalls agent ctx calls).fatal with
          | some e =>
            exact ⟨notifyBoth (.start agent.name) ++
                   (runToolCalls agent ctx calls).events,
              by simp [runLoop, hres, hb]⟩
          | none =>
            obtain ⟨tail, htail⟩ := ih rest agent
              (runToolCalls agent ctx calls).ctx input pre
              (cur ++ (runToolCalls agent ctx calls).items)
              (evs ++ (notifyBoth (HookEvent.start agent.name) ++
                (runToolCalls agent ctx calls).events))
              (instrs ++ [instr]) (turns + 1)
            exact ⟨notifyBoth (.start agent.name) ++
                   (runToolCalls agent ctx calls).events ++ tail,
              by simp [runLoop, hres, hb, htail]⟩
        | handoffCall target =>
          cases hfind : agent.handoffs.find? (fun h => h.targetName = target) with
          | none =>
            exact ⟨notifyBoth (.start agent.name), by simp [runLoop, hres, hfind]⟩
          | some h =>
            cases henvfind : env.find? (fun a => a.name = target) with
            | none =>
              exact ⟨notifyBoth (.start agent.name),
                by simp [runLoop, hres, hfind, henvfind]⟩
            | some targetAgent =>
              obtain ⟨tail, htail⟩ := ih rest targetAgent
                (match h.on_handoff with | some f => f ctx | none => ctx)
                (applyInputFilter h (mkHandoffInputData input pre
                  (cur ++ [Item.handoffOutput agent.name target]))).input_history.toItems
                ((applyInputFilter h (mkHandoffInputData input pre
                  (cur ++ [Item.handoffOutput agent.name target]))).pre_handoff_items ++
                 (applyInputFilter h (mkHandoffInputData input pre
                  (cur ++ [Item.handoffOutput agent.name target]))).new_items)
                []
                (evs ++ (notifyBoth (HookEvent.start agent.name) ++
                  notifyBoth (HookEvent.handoff agent.name target)))
                (instrs ++ [instr]) (turns + 1)
              exact ⟨notifyBoth (.start agent.name) ++
                     notifyBoth (.handoff agent.name target) ++ tail,
                by simp [runLoop, hres, hfind, henvfind, htail]⟩

/-- Every turn the loop enters (any fuel left, any agent, any state) emits
`on_start` for the active agent before any other event of that turn. -/
theorem runLoop_start_first {C : Type} (env : List (Agent C))
    (fuel : Nat) (script : List ModelResponse) (agent : Agent C) (ctx : C)
    (input pre cur : List Item) (evs : List (HookScope × HookEvent))
    (instrs : List String) (turns : Nat) :
    ∃ tail : List (HookScope × HookEvent),
      (runLoop env script (fuel + 1) agent ctx input pre cur evs instrs turns).2
        = evs ++ notifyBoth (.start agent.name) ++ tail := by
  cases hres : resolveInstructions agent.instructions ctx agent.name with
  | none => exact ⟨[], by simp [runLoop, hres]⟩
  | some instr =>
    cases script with
    | nil => exact ⟨[], by simp [runLoop, hres]⟩
    | cons resp rest =>
      cases resp with
      | content t =>
        exact ⟨notifyBoth (.finish agent.name t), by simp [runLoop, hres]⟩
      | toolCalls calls =>
        cases hb : (runToolCalls agent ctx calls).fatal with
        | some e =>
          exact ⟨(runToolCalls agent ctx calls).events, by simp [runLoop, hres, hb]⟩
        | none =>
          obtain ⟨tail, htail⟩ := runLoop_events_extend env fuel rest agent
            (runToolCalls agent ctx calls).ctx input pre
            (cur ++ (runToolCalls agent ctx calls).items)
            (evs ++ (notifyBoth (HookEvent.start agent.name) ++
              (runToolCalls agent ctx calls).events))
            (instrs ++ [instr]) (turns + 1)
          exact ⟨(runToolCalls agent ctx calls).events ++ tail,
            by simp [runLoop, hres, hb, htail]⟩
      | handoffCall target =>
        cases hfind : agent.handoffs.find? (fun h => h.targetName = target) with
        | none => exact ⟨[], by simp [runLoop, hres, hfind]⟩
        | some h =>
          cases henvfind : env.find? (fun a => a.name = target) with
          | none => exact ⟨[], by simp [runLoop, hres, hfind, henvfind]⟩
          | some targetAgent =>
            obtain ⟨tail, htail⟩ := runLoop_events_extend env fuel rest targetAgent
              (match h.on_handoff with | some f => f ctx | none => ctx)
              (applyInputFilter h (mkHandoffInputData input pre
                (cur ++ [Item.handoffOutput agent.name target]))).input_history.toItems
              ((applyInputFilter h (mkHandoffInputData input pre
                (cur ++ [Item.handoffOutput agent.name target]))).pre_handoff_items ++
               (applyInputFilter h (mkHandoffInputData input pre
                (cur ++ [Item.handoffOutput agent.name target]))).new_items)
              []
              (evs ++ (notifyBoth (HookEvent.start agent.name) ++
                notifyBoth (HookEvent.handoff agent.name target)))
              (instrs ++ [instr]) (turns + 1)
            exact ⟨notifyBoth (.handoff agent.name target) ++ tail,
              by simp [runLoop, hres, hfind, henvfind, htail]⟩

/-- C1 counterexample: `spanish_handoff_message_filter` from
`examples/handoffs/message_filter.py` does not satisfy the concatenation
invariant on its output: on a triple with a three-element tuple history the
filtered triple's concatenation differs from the full pre-transition
transcript, and its element count is not preserved. -/
theorem handoff_filter_invariant_counterexample :
    (spanish_handoff_message_filter filterCounterexampleData).transcript
      ≠ filterCounterexampleData.transcript
  ∧ (spanish_handoff_message_filter filterCounterexampleData).transcript.length
      ≠ filterCounterexampleData.transcript.length := by
  decide

/-- C1 amended: the runner-constructed `HandoffInputData` triple satisfies
the concatenation invariant, and the output of
`spanish_handoff_message_filter` satisfies it only up to the filter's
deletion: its concatenation equals the history past the first two elements
followed by the unchanged item fields, which is exactly the pre-transition
transcript with its first two elements removed whenever the tuple history
holds at least two elements — order of the retained elements preserved,
count reduced by the deletion. -/
theorem handoff_filter_invariant_amended :
    (∀ (input pre new : List Item),
        (mkHandoffInputData input pre new).transcript = input ++ pre ++ new)
  ∧ (∀ (xs pre new : List Item),
        (spanish_handoff_message_filter
            { input_history := .items xs, pre_handoff_items := pre,
              new_items := new }).transcript = xs.drop 2 ++ pre ++ new)
  ∧ (∀ (xs pre new : List Item), 2 ≤ xs.length →
        (spanish_handoff_message_filter
            { input_history := .items xs, pre_handoff_items := pre,
              new_items := new }).transcript
          = (HandoffInputData.transcript
              { input_history := .items xs, pre_handoff_items := pre,
                new_items := new }).drop 2) := by
  refine ⟨fun input pre new => rfl, fun xs pre new => rfl, ?_⟩
  intro xs pre new h2
  cases xs with
  | nil => simp at h2
  | cons a xs1 =>
    cases xs1 with
    | nil => simp at h2
    | cons b rest =>
      simp [spanish_handoff_message_filter, HandoffInputData.transcript,
        InputHistory.toItems]

/-- C1 witness: the amended statement at the concrete counterexample data:
the filtered transcript is the original transcript with its first two
elements removed. -/
theorem handoff_filter_invariant_witness :
    (spanish_handoff_message_filter filterCounterexampleData).transcript
      = filterCounterexampleData.transcript.drop 2 := by
  exact handoff_filter_invariant_amended.2.2
    [Item.message "user" "Hi, my name is Sora.",
     Item.message "Assistant" "Hello Sora.",
     Item.message "user" "Por favor habla en espanol."] []
    [Item.handoffOutput "Assistant" "Spanish Assistant"] (by decide)

/-- C2 counterexample: replaying a completed run's `to_input_list` against
its `last_agent` does not always reproduce a prefix-equal conversation.
The first run completes in one turn; its replay, against the same agent,
takes the handoff filtered by `spanish_handoff_message_filter`, which drops
the two stored history elements, so the second run's transcript does not
extend the first run's transcript. -/
theorem replay_prefix_counterexample :
    (Runner.run messageFilterEnv replayScript1 10 second_agent () replayInput).1
      = .ok replayFirstResult
  ∧ second_agent.name = replayFirstResult.last_agent
  ∧ (Runner.run messageFilterEnv replayScript2 10 second_agent ()
        replayFirstResult.to_input_list).1 = .ok replaySecondResult
  ∧ ¬ InitSeg replayFirstResult.to_input_list replaySecondResult.to_input_list := by
  exact ⟨rfl, rfl, rfl, by decide⟩

/-- C2 amended: replay idempotence holds for every run whose agent graph
carries no handoff input filters: feeding a result's `to_input_list` to a
new run against the same last agent produces a conversation of which the
original transcript is an initial segment. -/
theorem replay_prefix_amended {C : Type} (env : List (Agent C))
    (script : List ModelResponse) (fuel : Nat) (agent : Agent C) (ctx : C)
    (r1 r2 : RunResult)
    (henv : ∀ a ∈ env, ∀ h ∈ a.handoffs, h.input_filter = none)
    (hagent : ∀ h ∈ agent.handoffs, h.input_filter = none)
    (hlast : agent.name = r1.last_agent)
    (hrun : (Runner.run env script fuel agent ctx r1.to_input_list).1 = .ok r2) :
    InitSeg r1.to_input_list r2.to_input_list := by
  have hinput : r2.input = r1.to_input_list :=
    runLoop_ok_input env henv fuel script agent ctx _ [] [] [] [] 0 r2 hagent hrun
  have hsplit : r2.to_input_list = r1.to_input_list ++ r2.new_items := by
    simp [RunResult.to_input_list, hinput]
  rw [hsplit]
  exact ⟨r2.new_items, rfl⟩

/-- C2 witness: the amended statement at a concrete filter-free replay:
running `first_agent` once and replaying its `to_input_list` against the
same agent yields a transcript extending the first. -/
theorem replay_prefix_witness :
    InitSeg witnessFirstResult.to_input_list witnessSecondResult.to_input_list :=
  replay_prefix_amended [first_agent] [.content "Again."] 10 first_agent ()
    witnessFirstResult witnessSecondResult
    (by simp [first_agent]) (by simp [first_agent]) rfl rfl

/-- C3 counterexample: the recorded transcript of
`examples/basic/agent_lifecycle_example.py` refutes the claim that
`on_start` is notified only on an agent's first turn: the Start Agent hooks
instance received `on_start` twice, once at the run's first turn and once
at the turn entered after tool execution. -/
theorem hook_order_counterexample :
    ¬ startOnlyFirstTurn lifecycleTranscript "Start Agent"
  ∧ lifecycleTranscript.count (HookEvent.start "Start Agent") = 2 := by
  refine ⟨?_, by decide⟩
  simp only [startOnlyFirstTurn]
  decide

/-- C3 amended: hook ordering holds run-universally — for every run, every
lifecycle event is delivered to the agent-scope hook immediately before the
global-scope hook (the whole trace is `notifyBoth` flat-mapped over an event
list), and `on_start` for the active agent is the first event of every turn
entered, not only the agent's first; and the modelled runner reproduces the
recorded transcript of `examples/basic/agent_lifecycle_example.py` exactly,
whose turns run `on_start`, then `on_tool_start` and `on_tool_end` for the
turn's tool call, with each agent's final event `on_handoff` or
`on_end`. -/
theorem hook_order_amended :
    (∀ (C : Type) (env : List (Agent C)) (fuel : Nat)
       (script : List ModelResponse) (agent : Agent C) (ctx : C)
       (input pre cur : List Item) (evs : List (HookScope × HookEvent))
       (es0 : List HookEvent) (instrs : List String) (turns : Nat),
       evs = es0.flatMap notifyBoth →
       ∃ es : List HookEvent,
         (runLoop env script fuel agent ctx input pre cur evs instrs turns).2
           = es.flatMap notifyBoth)
  ∧ (∀ (C : Type) (env : List (Agent C)) (fuel : Nat)
       (script : List ModelResponse) (agent : Agent C) (ctx : C)
       (input pre cur : List Item) (evs : List (HookScope × HookEvent))
       (instrs : List String) (turns : Nat),
       ∃ tail : List (HookScope × HookEvent),
         (runLoop env script (fuel + 1) agent ctx input pre cur evs instrs
             turns).2
           = evs ++ notifyBoth (.start agent.name) ++ tail)
  ∧ (Runner.run lifecycleEnv lifecycleScript 10 start_agent () lifecycleInput).2
      = lifecycleTranscript.flatMap notifyBoth
  ∧ agentScopeEvents
      (Runner.run lifecycleEnv lifecycleScript 10 start_agent () lifecycleInput).2
      = lifecycleTranscript := by
  refine ⟨?_, ?_, by decide, by decide⟩
  · intro C env fuel script agent ctx input pre cur evs es0 instrs turns hevs
    exact runLoop_events_paired env fuel script agent ctx input pre cur evs
      es0 instrs turns hevs
  · intro C env fuel script agent ctx input pre cur evs instrs turns
    exact runLoop_start_first env fuel script agent ctx input pre cur evs
      instrs turns

/-- C3 witness: the universal clauses at the concrete recorded lifecycle
run, entered with the empty (vacuously paired) trace. -/
theorem hook_order_amended_witness :
    (∃ es : List HookEvent,
       (runLoop lifecycleEnv lifecycleScript 10 start_agent () lifecycleInput
           [] [] [] [] 0).2 = es.flatMap notifyBoth)
  ∧ (∃ tail : List (HookScope × HookEvent),
       (runLoop lifecycleEnv lifecycleScript 10 start_agent () lifecycleInput
           [] [] [] [] 0).2
         = [] ++ notifyBoth (.start "Start Agent") ++ tail) :=
  ⟨hook_order_amended.1 Unit lifecycleEnv 10 lifecycleScript start_agent ()
      lifecycleInput [] [] [] [] [] 0 rfl,
   hook_order_amended.2.1 Unit lifecycleEnv 9 lifecycleScript start_agent ()
      lifecycleInput [] [] [] [] 0⟩

/-- C4: with no input filter the target agent's effective input is the
entire pre-transition transcript unmodified; in particular a triple with
input history of two messages, no pre-handoff items and a single handoff
item passes through as exactly those three elements in order. -/
theorem no_filter_full_transcript {C : Type} (h : Handoff C)
    (d : HandoffInputData) (hf : h.input_filter = none) :
    (applyInputFilter h d).transcript = d.transcript
  ∧ ∀ m1 m2 hi : Item,
      (applyInputFilter h (mkHandoffInputData [m1, m2] [] [hi])).transcript
        = [m1, m2, hi] := by
  constructor
  · simp [applyInputFilter, hf]
  · intro m1 m2 hi
    simp [applyInputFilter, hf, mkHandoffInputData, HandoffInputData.transcript,
      InputHistory.toItems]

/-- C4 witness: the filterless FAQ handoff of
`examples/customer_service/main.py` passes a concrete two-message history
plus handoff item through unchanged. -/
theorem no_filter_full_transcript_witness :
    (applyInputFilter faq_handoff (mkHandoffInputData
        [Item.message "user" "What seats are there.",
         Item.message "Triage Agent" "Transferring you."] []
        [Item.handoffOutput "Triage Agent" "FAQ Agent"])).transcript
      = [Item.message "user" "What seats are there.",
         Item.message "Triage Agent" "Transferring you.",
         Item.handoffOutput "Triage Agent" "FAQ Agent"] :=
  (no_filter_full_transcript faq_handoff
      (mkHandoffInputData [] [] []) rfl).2
    (Item.message "user" "What seats are there.")
    (Item.message "Triage Agent" "Transferring you.")
    (Item.handoffOutput "Triage Agent" "FAQ Agent")

/-- C5: a run whose starting agent has no tools and no handoffs, and whose
model response is plain content, terminates after exactly one turn with the
starting agent as `last_agent` and the message as its single produced item —
for any instruction form (static or dynamic) whose resolution on the current
context succeeds. -/
theorem plain_content_single_turn {C : Type} (env : List (Agent C))
    (agent : Agent C) (ctx : C) (input : List Item) (s t : String)
    (rest : List ModelResponse) (fuel : Nat)
    (hTools : agent.tools = []) (hHandoffs : agent.handoffs = [])
    (hInstr : resolveInstructions agent.instructions ctx agent.name = some s) :
    (Runner.run env (.content t :: rest) (fuel + 1) agent ctx input).1 =
      .ok { final_output := t, new_items := [Item.message agent.name t],
            last_agent := agent.name, input := input, turns := 1,
            resolved_instructions := [s] } := by
  simp [Runner.run, runLoop, hInstr]

/-- C5 witness: the tool-free, handoff-free agent of
`examples/basic/hello_world_jupyter.py` terminates in one turn on plain
content, with itself as the last agent. -/
theorem plain_content_single_turn_witness :
    (Runner.run ([] : List (Agent Unit)) [.content "Code within code loops"] 10
        jupyter_agent ()
        [Item.message "user" "Write a haiku about recursion in programming."]).1
      = .ok { final_output := "Code within code loops",
              new_items := [Item.message "Assistant" "Code within code loops"],
              last_agent := "Assistant",
              input := [Item.message "user"
                "Write a haiku about recursion in programming."],
              turns := 1,
              resolved_instructions := ["You are a helpful assistant"] } :=
  plain_content_single_turn [] jupyter_agent ()
    [Item.message "user" "Write a haiku about recursion in programming."]
    "You are a helpful assistant" "Code within code loops" [] 9 rfl rfl rfl

/-- C6: exhausting the configured turn limit terminates the run with the
max-turns error carrying exactly the accumulated items, in production
order; concretely a two-turn limit against a three-tool-turn script fails
with the four items of the two completed turns; and in general (for
filter-free graphs, where no filter rewrites history) every outcome,
successful or failed, exposes an item list extending the items already
produced — no error condition discards completed turns. -/
theorem turn_limit_preserves_items :
    (∀ (C : Type) (env : List (Agent C)) (script : List ModelResponse)
       (agent : Agent C) (ctx : C) (input pre cur : List Item)
       (evs : List (HookScope × HookEvent)) (instrs : List String) (turns : Nat),
       (runLoop env script 0 agent ctx input pre cur evs instrs turns).1
         = .error (.maxTurnsExceeded (pre ++ cur)))
  ∧ (Runner.run [loop_agent] turnLimitScript 2 loop_agent () []).1
      = .error (.maxTurnsExceeded
          [Item.toolCall "Loop Agent" "step" "1",
           Item.toolOutput "Loop Agent" "ok 1",
           Item.toolCall "Loop Agent" "step" "2",
           Item.toolOutput "Loop Agent" "ok 2"])
  ∧ (∀ (C : Type) (env : List (Agent C)) (fuel : Nat)
       (script : List ModelResponse) (agent : Agent C) (ctx : C)
       (input pre cur : List Item) (evs : List (HookScope × HookEvent))
       (instrs : List String) (turns : Nat),
       (∀ a ∈ env, ∀ h ∈ a.handoffs, h.input_filter = none) →
       (∀ h ∈ agent.handoffs, h.input_filter = none) →
       InitSeg (pre ++ cur)
         (outcomeItems
           (runLoop env script fuel agent ctx input pre cur evs instrs turns).1)) := by
  refine ⟨fun C env script agent ctx input pre cur evs instrs turns => by
    simp [runLoop], rfl, ?_⟩
  intro C env fuel script agent ctx input pre cur evs instrs turns henv hagent
  exact runLoop_items_extend env henv fuel script agent ctx input pre cur evs
    instrs turns hagent

/-- C6 witness: the preservation statement at the concrete turn-limit
scenario, entered with one already-produced item, whose failure outcome
extends that item list. -/
theorem turn_limit_preserves_items_witness :
    InitSeg ([Item.message "user" "m"] ++ [])
      (outcomeItems (runLoop [loop_agent] turnLimitScript 2 loop_agent ()
        [] [Item.message "user" "m"] [] [] [] 0).1) :=
  turn_limit_preserves_items.2.2 Unit [loop_agent] 2 turnLimitScript loop_agent
    () [] [Item.message "user" "m"] [] [] [] 0
    (by simp [loop_agent]) (by simp [loop_agent])

/-- C7: a tool invocation that fails (schema validation failure or raised
exception, both modelled as the tool's error outcome) does not terminate
the run when the tool is not marked fatal, for any agent (static or dynamic
instructions) and any position of the failing call in its batch: (1) a
failing non-fatal call anywhere at the head of a remaining batch becomes a
`ToolCallItem` plus a `ToolCallOutputItem` carrying an error description
surfaced to the model, and the batch continues with the remaining calls;
(2) any tool batch with no fatal failure loops to the next turn of the run,
its items appended in request order; (3) a batch whose failure is fatal
terminates the run with a tool error preserving the items produced so
far. -/
theorem tool_error_recoverable :
    (∀ (C : Type) (agent : Agent C) (ctx : C) (n args e : String) (t : Tool C)
       (more : List (String × String)),
       agent.tools.find? (fun tl => tl.name = n) = some t →
       t.run ctx args = .error e →
       t.failureIsFatal = false →
       runToolCalls agent ctx ((n, args) :: more)
         = { ctx := (runToolCalls agent ctx more).ctx,
             items := [Item.toolCall agent.name n args,
                       Item.toolOutput agent.name
                         ("An error occurred while running the tool: " ++ e)]
               ++ (runToolCalls agent ctx more).items,
             events := notifyBoth (.toolStart agent.name n) ++
                       notifyBoth (.toolEnd agent.name n
                         ("An error occurred while running the tool: " ++ e)) ++
                       (runToolCalls agent ctx more).events,
             fatal := (runToolCalls agent ctx more).fatal })
  ∧ (∀ (C : Type) (env : List (Agent C)) (rest : List ModelResponse)
       (fuel : Nat) (agent : Agent C) (ctx : C) (input pre cur : List Item)
       (evs : List (HookScope × HookEvent)) (instrs : List String)
       (turns : Nat) (calls : List (String × String)) (s : String),
       resolveInstructions agent.instructions ctx agent.name = some s →
       (runToolCalls agent ctx calls).fatal = none →
       runLoop env (.toolCalls calls :: rest) (fuel + 1) agent ctx input pre
           cur evs instrs turns
         = runLoop env rest fuel agent (runToolCalls agent ctx calls).ctx input
             pre (cur ++ (runToolCalls agent ctx calls).items)
             (evs ++ notifyBoth (.start agent.name) ++
               (runToolCalls agent ctx calls).events)
             (instrs ++ [s]) (turns + 1))
  ∧ (∀ (C : Type) (env : List (Agent C)) (rest : List ModelResponse)
       (fuel : Nat) (agent : Agent C) (ctx : C) (input pre cur : List Item)
       (evs : List (HookScope × HookEvent)) (instrs : List String)
       (turns : Nat) (calls : List (String × String)) (s e : String),
       resolveInstructions agent.instructions ctx agent.name = some s →
       (runToolCalls agent ctx calls).fatal = some e →
       (runLoop env (.toolCalls calls :: rest) (fuel + 1) agent ctx input pre
           cur evs instrs turns).1
         = .error (.toolError e
             (pre ++ cur ++ (runToolCalls agent ctx calls).items))) := by
  refine ⟨?_, ?_, ?_⟩
  · intro C agent ctx n args e t more hfind herr hfatal
    simp [runToolCalls, hfind, herr, hfatal]
  · intro C env rest fuel agent ctx input pre cur evs instrs turns calls s
      hres hb
    simp [runLoop, hres, hb]
  · intro C env rest fuel agent ctx input pre cur evs instrs turns calls s e
      hres hb
    simp [runLoop, hres, hb]

/-- C7 witness: a concrete recoverable tool failure turns into an
error-carrying output item with its batch and run continuing, and a
concrete fatal-marked tool failure terminates with a tool error preserving
the call item. -/
theorem tool_error_recoverable_witness :
    (runToolCalls broken_agent () [("broken", "x")]
      = { ctx := (runToolCalls broken_agent ()
              ([] : List (String × String))).ctx,
          items := [Item.toolCall "Tool Agent" "broken" "x",
                    Item.toolOutput "Tool Agent"
                      ("An error occurred while running the tool: "
                        ++ "invalid arguments")]
            ++ (runToolCalls broken_agent () []).items,
          events := notifyBoth (.toolStart "Tool Agent" "broken") ++
                    notifyBoth (.toolEnd "Tool Agent" "broken"
                      ("An error occurred while running the tool: "
                        ++ "invalid arguments")) ++
                    (runToolCalls broken_agent () []).events,
          fatal := (runToolCalls broken_agent () []).fatal })
  ∧ (runLoop ([] : List (Agent Unit)) [.toolCalls [("broken", "x")],
          .content "ok"] 2 broken_agent () [] [] [] [] [] 0
      = runLoop [] [.content "ok"] 1 broken_agent
          (runToolCalls broken_agent () [("broken", "x")]).ctx [] []
          ([] ++ (runToolCalls broken_agent () [("broken", "x")]).items)
          ([] ++ notifyBoth (.start "Tool Agent") ++
            (runToolCalls broken_agent () [("broken", "x")]).events)
          ([] ++ ["Use the tool."]) (0 + 1))
  ∧ (runLoop ([] : List (Agent Unit)) [.toolCalls [("fatal", "x")]] 1
        fatal_agent () [] [] [] [] [] 0).1
      = .error (.toolError "invalid arguments"
          ([] ++ [] ++ (runToolCalls fatal_agent () [("fatal", "x")]).items)) :=
  ⟨tool_error_recoverable.1 Unit broken_agent () "broken" "x"
      "invalid arguments" broken_tool [] rfl rfl rfl,
   tool_error_recoverable.2.1 Unit [] [.content "ok"] 1 broken_agent () []
      [] [] [] [] 0 [("broken", "x")] "Use the tool." rfl rfl,
   tool_error_recoverable.2.2 Unit [] [] 0 fatal_agent () [] [] [] [] [] 0
      [("fatal", "x")] "Use the tool." "invalid arguments" rfl rfl⟩

/-- C8: dynamic instructions are evaluated fresh, exactly once per turn the
agent is active, reading the current context and the active agent, never
cached across turns, and an evaluation error aborts the run with a
configuration error before any model call: (1) a failing evaluation yields
the configuration error even when the model script is empty; (2) every
successful run resolves exactly one instruction string per turn; (3) in the
counting scenario a context mutation between the two turns is visible in
the second resolved string, so the first evaluation was not cached; (4) the
two resolved strings are distinct; (5) the `chat_agent` of
`examples/basic/dynamic_system_prompt.py` resolves by evaluating
`custom_instructions` on the current context and agent, and that function
maps the haiku style to its instruction string. -/
theorem dynamic_instructions_fresh_each_turn :
    (∀ (C : Type) (env : List (Agent C)) (script : List ModelResponse)
       (fuel : Nat) (agent : Agent C) (ctx : C) (input : List Item)
       (f : C → String → Option String),
       agent.instructions = .dynamic f → f ctx agent.name = none →
       (Runner.run env script (fuel + 1) agent ctx input).1
         = .error (.configError []))
  ∧ (∀ (C : Type) (env : List (Agent C)) (fuel : Nat)
       (script : List ModelResponse) (agent : Agent C) (ctx : C)
       (input : List Item) (r : RunResult),
       (Runner.run env script fuel agent ctx input).1 = .ok r →
       r.resolved_instructions.length = r.turns)
  ∧ (Runner.run [counting_agent] countingScript 10 counting_agent 0 []).1
      = .ok countingResult
  ∧ countingResult.resolved_instructions
      = ["Context counter is 0", "Context counter is 1"]
  ∧ ("Context counter is 0" : String) ≠ "Context counter is 1"
  ∧ (∀ (ctx : CustomContext) (a : String),
       resolveInstructions chat_agent.instructions ctx a
         = some (custom_instructions ctx a))
  ∧ custom_instructions { style := Style.haiku } "Chat agent"
      = "Only respond in haikus." := by
  refine ⟨?_, ?_, rfl, rfl, by decide, fun ctx a => rfl, rfl⟩
  · intro C env script fuel agent ctx input f hInstr hf
    simp [Runner.run, runLoop, resolveInstructions, hInstr, hf]
  · intro C env fuel script agent ctx input r hok
    exact runLoop_ok_turns env fuel script agent ctx input [] [] [] [] 0 r rfl hok

/-- C8 witness: the always-failing dynamic instructions abort a concrete
run with a configuration error, and the concrete counting run resolved as
many instruction strings as it took turns. -/
theorem dynamic_instructions_fresh_each_turn_witness :
    (Runner.run ([] : List (Agent Unit)) [] 1 failing_agent () []).1
      = .error (.configError [])
  ∧ countingResult.resolved_instructions.length = countingResult.turns :=
  ⟨dynamic_instructions_fresh_each_turn.1 Unit [] [] 0 failing_agent () []
      (fun _ _ => none) rfl rfl,
   dynamic_instructions_fresh_each_turn.2.1 Nat [counting_agent] 10
      countingScript counting_agent 0 [] countingResult rfl⟩

/-- C9: `spanish_handoff_message_filter` is total on both input-history
shapes and passes the two item fields through element-wise; a tuple history
comes out with exactly its first two elements removed (the python slice
from index two), and a raw string history comes out unchanged. -/
theorem spanish_filter_frame :
    (∀ (xs pre new : List Item),
        spanish_handoff_message_filter
            { input_history := .items xs, pre_handoff_items := pre,
              new_items := new }
          = { input_history := .items (xs.drop 2), pre_handoff_items := pre,
              new_items := new })
  ∧ (∀ (s : String) (pre new : List Item),
        spanish_handoff_message_filter
            { input_history := .raw s, pre_handoff_items := pre,
              new_items := new }
          = { input_history := .raw s, pre_handoff_items := pre,
              new_items := new }) :=
  ⟨fun _ _ _ => rfl, fun _ _ _ => rfl⟩

/-- C10: `on_seat_booking_handoff` of `examples/customer_service/main.py`
sets `flight_number` to the string "FLT-" followed by an integer in the
inclusive range 100 to 999 (the draw of `random.randint(100, 999)`), and
leaves `passenger_name`, `confirmation_number` and `seat_number`
unchanged. -/
theorem seat_booking_handoff_frame (draw : Nat) (ctx : AirlineAgentContext)
    (h1 : 100 ≤ draw) (h2 : draw ≤ 999) :
    (∃ n : Nat, 100 ≤ n ∧ n ≤ 999 ∧
        (on_seat_booking_handoff draw ctx).flight_number
          = some ("FLT-" ++ toString n))
  ∧ (on_seat_booking_handoff draw ctx).passenger_name = ctx.passenger_name
  ∧ (on_seat_booking_handoff draw ctx).confirmation_number
      = ctx.confirmation_number
  ∧ (on_seat_booking_handoff draw ctx).seat_number = ctx.seat_number :=
  ⟨⟨draw, h1, h2, rfl⟩, rfl, rfl, rfl⟩

/-- C10 witness: the frame statement at the draw 123 and the empty
context. -/
theorem seat_booking_handoff_frame_witness :
    (∃ n : Nat, 100 ≤ n ∧ n ≤ 999 ∧
        (on_seat_booking_handoff 123 {}).flight_number
          = some ("FLT-" ++ toString n))
  ∧ (on_seat_booking_handoff 123 {}).passenger_name
      = ({} : AirlineAgentContext).passenger_name
  ∧ (on_seat_booking_handoff 123 {}).confirmation_number
      = ({} : AirlineAgentContext).confirmation_number
  ∧ (on_seat_booking_handoff 123 {}).seat_number
      = ({} : AirlineAgentContext).seat_number :=
  seat_booking_handoff_frame 123 {} (by decide) (by decide)
